import Mathlib

/-!
Shallow embedding of the TestBroker backend (src/app.py): a simulated
brokerage holding cash balances, positions with weighted-average cost
basis, an append-only transaction log, and periodic portfolio-value
snapshots with range-bucketed history queries.

Modelling conventions:
* Monetary amounts, prices and share quantities are exact rationals
  (the Python source uses floats / SQL decimals; the claims under
  verification are about the arithmetic formulas, stated exactly).
* The relational store is a record of lists mirroring the four tables
  accounts, positions, transactions, portfolio_history.
* The market-quote gateway get_ticker_info is an oracle parameter
  of type String -> Option TickerInfo; none models a failed lookup.
  The field price_is_numeric models the isinstance check on the
  price value performed by the snapshot recorder (app.py line 339).
* Timestamps are seconds since the epoch (UTC) as naturals; a UTC
  calendar day is the quotient by 86400.  The SQL intervals
  "1 month" and "1 year" are modelled as 30 and 365 days; no claim
  depends on the exact cutoff, only on filtering/bucketing/ordering.
* Each Flask handler becomes a pure function returning
  Except ApiError of the successor database state (orders) or the
  response payload (reads); the error constructors name the distinct
  error responses of the handler.  An early error return leaves the
  store untouched, matching the source where every error return
  happens before db.commit.
-/

/-- Result of the quote gateway get_ticker_info (app.py lines 40-75):
current price, day change percentage and display name.
price_is_numeric records whether the price value is an int/float
(app.py line 339 checks this in the snapshot recorder). -/
structure TickerInfo where
  price : ℚ
  change_pct : ℚ
  name : String
  price_is_numeric : Bool
deriving Repr, DecidableEq

/-- Row of the accounts table. -/
structure Account where
  user_id : String
  cash_balance : ℚ
deriving Repr, DecidableEq

/-- Row of the positions table. -/
structure Position where
  position_id : Nat
  user_id : String
  ticker_symbol : String
  quantity : ℚ
  average_buy_price : ℚ
deriving Repr, DecidableEq

/-- Row of the transactions table. -/
structure TransactionRow where
  user_id : String
  ticker_symbol : String
  transaction_type : String
  quantity : ℚ
  price_per_share : ℚ
deriving Repr, DecidableEq

/-- Row of the portfolio_history table. -/
structure HistoryRow where
  user_id : String
  created_at : Nat
  value : ℚ
deriving Repr, DecidableEq

/-- The relational store. nextPositionId models the serial primary key
of the positions table. -/
structure DB where
  accounts : List Account
  positions : List Position
  transactions : List TransactionRow
  history : List HistoryRow
  nextPositionId : Nat
deriving Repr, DecidableEq

/-- The distinct error responses produced by the handlers.
InternalError stands for an unhandled exception (HTTP 500), which the
sell handler can raise by reading cash_balance of a missing account
row (app.py lines 153-156 have no None check). -/
inductive ApiError where
  | InvalidInput
  | QuoteUnavailable
  | UserNotFound
  | InsufficientFunds
  | InsufficientShares
  | InternalError
deriving Repr, DecidableEq

/-- SELECT cash_balance FROM accounts WHERE user_id = .. (first row). -/
def findAccount (db : DB) (uid : String) : Option Account :=
  db.accounts.find? (fun a => a.user_id == uid)

/-- UPDATE accounts SET cash_balance = .. WHERE user_id = .. . -/
def updateCash (db : DB) (uid : String) (newBalance : ℚ) : DB :=
  { db with
    accounts := db.accounts.map (fun a =>
      if a.user_id == uid then { a with cash_balance := newBalance } else a) }

/-- SELECT * FROM positions WHERE user_id = .. AND ticker_symbol = .. . -/
def findPosition (db : DB) (uid ticker : String) : Option Position :=
  db.positions.find? (fun p => p.user_id == uid && p.ticker_symbol == ticker)

/-- UPDATE positions SET quantity = .., average_buy_price = ..
WHERE position_id = .. . -/
def updatePositionRow (db : DB) (pid : Nat) (qty avg : ℚ) : DB :=
  { db with
    positions := db.positions.map (fun p =>
      if p.position_id == pid then
        { p with quantity := qty, average_buy_price := avg } else p) }

/-- UPDATE positions SET quantity = .. WHERE position_id = .. . -/
def updatePositionQty (db : DB) (pid : Nat) (qty : ℚ) : DB :=
  { db with
    positions := db.positions.map (fun p =>
      if p.position_id == pid then { p with quantity := qty } else p) }

/-- INSERT INTO positions (user_id, ticker_symbol, quantity, average_buy_price). -/
def insertPosition (db : DB) (uid ticker : String) (qty avg : ℚ) : DB :=
  { db with
    positions := db.positions ++ [⟨db.nextPositionId, uid, ticker, qty, avg⟩],
    nextPositionId := db.nextPositionId + 1 }

/-- DELETE FROM positions WHERE position_id = .. . -/
def deletePositionRow (db : DB) (pid : Nat) : DB :=
  { db with positions := db.positions.filter (fun p => !(p.position_id == pid)) }

/-- INSERT INTO transactions (user_id, ticker_symbol, transaction_type,
quantity, price_per_share). -/
def insertTransaction (db : DB) (uid ticker ty : String) (qty price : ℚ) : DB :=
  { db with transactions := db.transactions ++ [⟨uid, ticker, ty, qty, price⟩] }

/-- SELECT .. FROM positions WHERE user_id = .. . -/
def listPositions (db : DB) (uid : String) : List Position :=
  db.positions.filter (fun p => p.user_id == uid)

/-- Python-style whitespace test for str.strip. -/
def isSpaceChar (c : Char) : Bool :=
  c == ' ' || c == '\t' || c == '\n' || c == '\r'

/-- Model of Python str.strip: removes leading and trailing
whitespace. -/
def pyStrip (s : String) : String :=
  ⟨((s.data.dropWhile isSpaceChar).reverse.dropWhile isSpaceChar).reverse⟩

/-- Model of Python str.upper on one character (ASCII, which covers
ticker symbols). -/
def pyUpperChar (c : Char) : Char :=
  if 'a' ≤ c ∧ c ≤ 'z' then Char.ofNat (c.toNat - 32) else c

/-- Model of Python str.upper. -/
def pyUpper (s : String) : String :=
  ⟨s.data.map pyUpperChar⟩

/-- Model of Python str.lower on one character (ASCII). -/
def pyLowerChar (c : Char) : Char :=
  if 'A' ≤ c ∧ c ≤ 'Z' then Char.ofNat (c.toNat + 32) else c

/-- Model of Python str.lower. -/
def pyLower (s : String) : String :=
  ⟨s.data.map pyLowerChar⟩

/-- Model of Python str.endswith: the last characters of s spell the
suffix. -/
def pyEndsWith (s suffix : String) : Bool :=
  s.data.reverse.take suffix.data.length == suffix.data.reverse

/-- Ticker normalisation performed by both order handlers:
strip then upper applied to the ticker field of the request body
(app.py lines 87 and 134). -/
def normalizeSymbol (s : String) : String :=
  pyUpper (pyStrip s)

/-- The float tolerance 0.0000001 used when closing a position
(app.py line 160). -/
def sellEpsilon : ℚ := 1 / 10000000

/-- The /buy handler buy_stock (app.py lines 83-127).  Order of checks
follows the source: quantity > 0, quote lookup, account lookup, funds
check; then cash debit, position upsert with weighted-average cost
basis, and BUY transaction insert. -/
def buy_stock (quotes : String → Option TickerInfo) (db : DB)
    (user_id rawTicker : String) (quantity : ℚ) : Except ApiError DB :=
  let ticker := normalizeSymbol rawTicker
  if quantity ≤ 0 then .error .InvalidInput
  else
    match quotes ticker with
    | none => .error .QuoteUnavailable
    | some ticker_data =>
      let price := ticker_data.price
      let total_cost := price * quantity
      match findAccount db user_id with
      | none => .error .UserNotFound
      | some account =>
        if account.cash_balance < total_cost then .error .InsufficientFunds
        else
          let db1 := updateCash db user_id (account.cash_balance - total_cost)
          let db2 :=
            match findPosition db1 user_id ticker with
            | some position =>
              let new_quantity := position.quantity + quantity
              let new_avg_price :=
                (position.average_buy_price * position.quantity + price * quantity) /
                  new_quantity
              updatePositionRow db1 position.position_id new_quantity new_avg_price
            | none => insertPosition db1 user_id ticker quantity price
          .ok (insertTransaction db2 user_id ticker "BUY" quantity price)

/-- The /sell handler sell_stock (app.py lines 130-169).  Order of
checks follows the source: quantity > 0, position lookup and share
check (before the quote is fetched), quote lookup; then cash credit,
position decrement or deletion under the float tolerance, and SELL
transaction insert. -/
def sell_stock (quotes : String → Option TickerInfo) (db : DB)
    (user_id rawTicker : String) (quantity_to_sell : ℚ) : Except ApiError DB :=
  let ticker := normalizeSymbol rawTicker
  if quantity_to_sell ≤ 0 then .error .InvalidInput
  else
    match findPosition db user_id ticker with
    | none => .error .InsufficientShares
    | some position =>
      if position.quantity < quantity_to_sell then .error .InsufficientShares
      else
        match quotes ticker with
        | none => .error .QuoteUnavailable
        | some ticker_data =>
          let price := ticker_data.price
          let total_revenue := price * quantity_to_sell
          match findAccount db user_id with
          | none => .error .InternalError
          | some account =>
            let db1 := updateCash db user_id (account.cash_balance + total_revenue)
            let new_quantity := position.quantity - quantity_to_sell
            let db2 :=
              if new_quantity ≤ sellEpsilon then
                deletePositionRow db1 position.position_id
              else
                updatePositionQty db1 position.position_id new_quantity
            .ok (insertTransaction db2 user_id ticker "SELL" quantity_to_sell price)

/-- One entry of the positions array in the /portfolio response
(app.py lines 219-229). -/
structure DetailedPosition where
  ticker : String
  name : String
  quantity : ℚ
  average_buy_price : ℚ
  current_price : ℚ
  current_value : ℚ
  unrealized_pnl : ℚ
  unrealized_pnl_pct : ℚ
  day_change_pct : ℚ
deriving Repr, DecidableEq

/-- The /portfolio response payload (app.py lines 239-248). -/
structure PortfolioView where
  user_id : String
  cash_balance : ℚ
  total_asset_value : ℚ
  total_value_stocks : ℚ
  total_value_crypto : ℚ
  total_portfolio_value : ℚ
  overall_pnl_pct : ℚ
  positions : List DetailedPosition
deriving Repr, DecidableEq

/-- The per-position body of the valuation loop (app.py lines 190-229):
quote lookup with graceful degradation to price 0, change 0 and the
ticker as display name, then value / unrealized pnl / pnl percentage
with the zero-cost-basis guard. -/
def value_position (quotes : String → Option TickerInfo) (pos : Position) :
    DetailedPosition :=
  let ticker := pos.ticker_symbol
  let quantity := pos.quantity
  let avg_buy_price := pos.average_buy_price
  let position_investment_cost := avg_buy_price * quantity
  let current_price := match quotes ticker with
    | some ticker_data => ticker_data.price
    | none => 0
  let day_change_pct := match quotes ticker with
    | some ticker_data => ticker_data.change_pct
    | none => 0
  let name := match quotes ticker with
    | some ticker_data => ticker_data.name
    | none => ticker
  let position_value := current_price * quantity
  let unrealized_pnl := (current_price - avg_buy_price) * quantity
  let unrealized_pnl_pct :=
    if position_investment_cost > 0 then unrealized_pnl / position_investment_cost
    else 0
  { ticker := ticker, name := name, quantity := quantity,
    average_buy_price := avg_buy_price, current_price := current_price,
    current_value := position_value, unrealized_pnl := unrealized_pnl,
    unrealized_pnl_pct := unrealized_pnl_pct, day_change_pct := day_change_pct }

/-- The accumulating loop of the /portfolio handler (app.py lines
189-229), returning (total_value_stocks, total_value_crypto,
total_investment_cost, detailed_positions).  Additions are reassociated
to tail-first order, which is equal by commutativity of rational
addition; the emitted list keeps the iteration order. -/
def portfolioLoop (quotes : String → Option TickerInfo) :
    List Position → ℚ × ℚ × ℚ × List DetailedPosition
  | [] => (0, 0, 0, [])
  | pos :: rest =>
    let d := value_position quotes pos
    let (s, c, t, ds) := portfolioLoop quotes rest
    if pyEndsWith pos.ticker_symbol "-USD" then
      (s, d.current_value + c, pos.average_buy_price * pos.quantity + t, d :: ds)
    else
      (d.current_value + s, c, pos.average_buy_price * pos.quantity + t, d :: ds)

/-- The /portfolio handler get_portfolio (app.py lines 171-248). -/
def get_portfolio_view (quotes : String → Option TickerInfo) (db : DB)
    (user_id : String) : Except ApiError PortfolioView :=
  match findAccount db user_id with
  | none => .error .UserNotFound
  | some account =>
    let cash_balance := account.cash_balance
    let (total_value_stocks, total_value_crypto, total_investment_cost,
         detailed_positions) := portfolioLoop quotes (listPositions db user_id)
    let total_asset_value := total_value_stocks + total_value_crypto
    let total_portfolio_value := total_asset_value + cash_balance
    let overall_pnl_pct :=
      if total_investment_cost > 0 then
        (total_asset_value - total_investment_cost) / total_investment_cost
      else 0
    .ok { user_id := user_id, cash_balance := cash_balance,
          total_asset_value := total_asset_value,
          total_value_stocks := total_value_stocks,
          total_value_crypto := total_value_crypto,
          total_portfolio_value := total_portfolio_value,
          overall_pnl_pct := overall_pnl_pct,
          positions := detailed_positions }

/-- Per-position contribution to the snapshot value (app.py lines
336-342): price * quantity when the quote resolved and its price is
numeric, otherwise zero. -/
def snapshotContribution (quotes : String → Option TickerInfo) (pos : Position) : ℚ :=
  match quotes pos.ticker_symbol with
  | some ticker_data =>
    if ticker_data.price_is_numeric then ticker_data.price * pos.quantity else 0
  | none => 0

/-- The asset-value accumulation loop of the snapshot recorder
(app.py lines 335-342). -/
def snapshotAssetValue (quotes : String → Option TickerInfo) :
    List Position → ℚ
  | [] => 0
  | pos :: rest => snapshotContribution quotes pos + snapshotAssetValue quotes rest

/-- Total portfolio value recorded for one user by the snapshot job
(app.py lines 327-344): cash balance (0 when the account row is
missing, line 330) plus the asset value over the positions of the
user. -/
def snapshot_value (quotes : String → Option TickerInfo) (db : DB)
    (user_id : String) : ℚ :=
  let cash_balance := match findAccount db user_id with
    | some account => account.cash_balance
    | none => 0
  cash_balance + snapshotAssetValue quotes (listPositions db user_id)

/-- The per-user loop of /api/record-history (app.py lines 323-354),
returning the new history rows in iteration order and the count of
successfully recorded users.  The parameter fails models the
per-user try/except: fails uid = true means the block for uid raised
an exception, which is caught and only logged, so the loop continues
with the remaining users and no row is counted for uid. -/
def recordLoop (quotes : String → Option TickerInfo) (fails : String → Bool)
    (now : Nat) (db : DB) : List String → List HistoryRow × Nat
  | [] => ([], 0)
  | uid :: rest =>
    let (rows, c) := recordLoop quotes fails now db rest
    if fails uid then (rows, c)
    else (⟨uid, now, snapshot_value quotes db uid⟩ :: rows, c + 1)

/-- The /api/record-history handler record_portfolio_history (app.py
lines 302-359), after the cron-secret check: iterates
SELECT DISTINCT user_id FROM accounts, values each user and appends
one portfolio_history row per successfully valued user; returns the
new store and the recorded count. -/
def record_portfolio_history (quotes : String → Option TickerInfo)
    (fails : String → Bool) (now : Nat) (db : DB) : DB × Nat :=
  let users := (db.accounts.map (fun a => a.user_id)).dedup
  let (rows, count) := recordLoop quotes fails now db users
  ({ db with history := db.history ++ rows }, count)

/-- One point of the history response: timestamp (seconds UTC) and
portfolio value. -/
structure HistoryPoint where
  timestamp : Nat
  value : ℚ
deriving Repr, DecidableEq

/-- Seconds per UTC calendar day. -/
def secondsPerDay : Nat := 86400

/-- The UTC calendar day of a timestamp, as used by
date_trunc(day, ..) in the history SQL. -/
def dayOf (t : Nat) : Nat := t / secondsPerDay

/-- Model of date_trunc(day, NOW() AT TIME ZONE UTC): start of the
current UTC day. -/
def startOfDay (t : Nat) : Nat := dayOf t * secondsPerDay

/-- WHERE user_id = .. AND created_at >= cutoff over portfolio_history. -/
def userHistoryRows (db : DB) (uid : String) (cutoff : Nat) : List HistoryRow :=
  db.history.filter (fun r => r.user_id == uid && decide (cutoff ≤ r.created_at))

/-- ORDER BY created_at ASC. -/
def sortRowsByTime (l : List HistoryRow) : List HistoryRow :=
  List.insertionSort (fun a b => a.created_at ≤ b.created_at) l

/-- SELECT created_at as timestamp, value: a raw, unaggregated row
becomes one output point. -/
def rawPoints (l : List HistoryRow) : List HistoryPoint :=
  l.map (fun r => ⟨r.created_at, r.value⟩)

/-- The distinct UTC days occurring in a list of history rows. -/
def daysOf (l : List HistoryRow) : List Nat :=
  (l.map (fun r => dayOf r.created_at)).dedup

/-- GROUP BY date_trunc(day, ..) with AVG(value), ORDER BY day ASC
(the 1y branch of the history SQL, app.py lines 409-417): one point
per distinct UTC day holding the arithmetic mean of that day, keyed by
the start-of-day timestamp, ascending. -/
def dailyAverages (l : List HistoryRow) : List HistoryPoint :=
  (List.insertionSort (fun a b => a ≤ b) (daysOf l)).map (fun d =>
    let dayRows := l.filter (fun r => dayOf r.created_at == d)
    ⟨d * secondsPerDay,
     ((dayRows.map (fun r => r.value)).sum) / (dayRows.length : ℚ)⟩)

/-- The range-dependent query of the history handler (app.py lines
367-432): the request range is lowercased, then dispatched; the
unrecognised-range fallback repeats the 1d query.  The SQL intervals
"7 days", "1 month" and "1 year" are modelled as 7, 30 and 365 days of
86400 seconds (truncated subtraction on naturals). -/
def get_portfolio_history (db : DB) (now : Nat) (user_id rawRange : String) :
    List HistoryPoint :=
  let range := pyLower rawRange
  if range == "1d" then
    rawPoints (sortRowsByTime (userHistoryRows db user_id (startOfDay now)))
  else if range == "1w" then
    rawPoints (sortRowsByTime (userHistoryRows db user_id (now - 7 * secondsPerDay)))
  else if range == "1m" then
    rawPoints (sortRowsByTime (userHistoryRows db user_id (now - 30 * secondsPerDay)))
  else if range == "1y" then
    dailyAverages (userHistoryRows db user_id (now - 365 * secondsPerDay))
  else
    rawPoints (sortRowsByTime (userHistoryRows db user_id (startOfDay now)))

/-- The full history handler response: every path of the handler
returns HTTP 200 with the query result; there is no user-existence
check and no error branch (app.py lines 362-444). -/
def get_portfolio_history_endpoint (db : DB) (now : Nat)
    (user_id rawRange : String) : Except ApiError (List HistoryPoint) :=
  Except.ok (get_portfolio_history db now user_id rawRange)
/-- Quote oracle fixture: AAPL quotes at 20 with 1 percent day change. -/
def quotesW : String → Option TickerInfo := fun s =>
  if s == "AAPL" then some ⟨20, 1, "Apple", true⟩ else none

/-- Store fixture: one account with 1000 cash holding 2 AAPL at
average price 10. -/
def dbW : DB := ⟨[⟨"u1", 1000⟩], [⟨1, "u1", "AAPL", 2, 10⟩], [], [], 2⟩

/-- dbW after buying 2 AAPL at 20. -/
def dbW9 : DB :=
  ⟨[⟨"u1", 960⟩], [⟨1, "u1", "AAPL", 4, 15⟩],
   [⟨"u1", "AAPL", "BUY", 2, 20⟩], [], 2⟩

/-- dbW9 after selling 2 AAPL at 20. -/
def dbW9b : DB :=
  ⟨[⟨"u1", 1000⟩], [⟨1, "u1", "AAPL", 2, 15⟩],
   [⟨"u1", "AAPL", "BUY", 2, 20⟩, ⟨"u1", "AAPL", "SELL", 2, 20⟩], [], 2⟩
/-- dbW after buying 3 AAPL at 20. -/
def dbW1 : DB :=
  ⟨[⟨"u1", 940⟩], [⟨1, "u1", "AAPL", 5, 16⟩],
   [⟨"u1", "AAPL", "BUY", 3, 20⟩], [], 2⟩

/-- dbW after buying 1 AAPL at 20. -/
def dbW2 : DB :=
  ⟨[⟨"u1", 980⟩], [⟨1, "u1", "AAPL", 3, 40 / 3⟩],
   [⟨"u1", "AAPL", "BUY", 1, 20⟩], [], 2⟩

/-- dbW after selling the full 2 AAPL at 20: the position row is gone. -/
def dbW3 : DB :=
  ⟨[⟨"u1", 1040⟩], [], [⟨"u1", "AAPL", "SELL", 2, 20⟩], [], 2⟩

/-- Portfolio view of dbW under quotesW. -/
def pfW : PortfolioView :=
  ⟨"u1", 1000, 40, 40, 0, 1040, 1, [⟨"AAPL", "Apple", 2, 10, 20, 40, 20, 1, 1⟩]⟩

/-- Quote oracle fixture with every lookup failing. -/
def quotesNone : String → Option TickerInfo := fun _ => none

/-- Portfolio view of dbW when every quote lookup fails. -/
def pfW6 : PortfolioView :=
  ⟨"u1", 1000, 0, 0, 0, 1000, -1, [⟨"AAPL", "AAPL", 2, 10, 0, 0, -20, -1, 0⟩]⟩

/-- History fixture: three snapshots for user u, two on the same UTC
day. -/
def dbH : DB :=
  ⟨[], [], [], [⟨"u", 100, 5⟩, ⟨"u", 200000, 7⟩, ⟨"u", 90000, 3⟩], 1⟩

/-- Store fixture for the snapshot recorder: two users, one of which
fails. -/
def dbR : DB :=
  ⟨[⟨"u1", 1000⟩, ⟨"bad", 5⟩, ⟨"u1", 3⟩], [⟨1, "u1", "AAPL", 2, 10⟩], [], [], 2⟩

/-- Failure oracle fixture for the snapshot recorder. -/
def failsR : String → Bool := fun u => u == "bad"
section Helpers

/-- find? over a map by a function that preserves the predicate. -/
theorem find?_map_pred {α : Type} (p : α → Bool) (f : α → α)
    (hp : ∀ x, p (f x) = p x) :
    ∀ l : List α, (l.map f).find? p = (l.find? p).map f := by
  intro l
  induction l with
  | nil => rfl
  | cons a l ih =>
    simp only [List.map_cons, List.find?_cons]
    rw [hp a]
    cases h : p a <;> simp [ih]

/-- find? over an append whose first part has no match. -/
theorem find?_append_none {α : Type} (p : α → Bool) {l₁ : List α}
    (h : l₁.find? p = none) (l₂ : List α) :
    (l₁ ++ l₂).find? p = l₂.find? p := by
  induction l₁ with
  | nil => rfl
  | cons a l ih =>
    simp only [List.cons_append, List.find?_cons] at h ⊢
    cases hpa : p a
    · simp only [hpa] at h ⊢
      exact ih h
    · simp [hpa] at h

theorem findAccount_updateCash {db : DB} {uid : String} {acct : Account}
    (h : findAccount db uid = some acct) (bal : ℚ) :
    findAccount (updateCash db uid bal) uid =
      some { acct with cash_balance := bal } := by
  unfold findAccount at h
  have hpa : (acct.user_id == uid) = true := by simpa using List.find?_some h
  unfold findAccount updateCash
  rw [find?_map_pred]
  · rw [h]
    have hpe : acct.user_id = uid := by simpa using hpa
    simp [hpe]
  · intro x
    by_cases hx : x.user_id == uid <;> simp [hx]

theorem findPosition_updateCash (db : DB) (uid tk u2 : String) (bal : ℚ) :
    findPosition (updateCash db u2 bal) uid tk = findPosition db uid tk := rfl

theorem findAccount_updatePositionRow (db : DB) (uid : String) (pid : Nat)
    (qty avg : ℚ) :
    findAccount (updatePositionRow db pid qty avg) uid = findAccount db uid := rfl

theorem findAccount_insertPosition (db : DB) (uid u2 tk : String) (qty avg : ℚ) :
    findAccount (insertPosition db u2 tk qty avg) uid = findAccount db uid := rfl

theorem findAccount_insertTransaction (db : DB) (uid u2 tk ty : String)
    (qty price : ℚ) :
    findAccount (insertTransaction db u2 tk ty qty price) uid = findAccount db uid := rfl

theorem findPosition_insertTransaction (db : DB) (uid tk u2 t2 ty : String)
    (qty price : ℚ) :
    findPosition (insertTransaction db u2 t2 ty qty price) uid tk =
      findPosition db uid tk := rfl

theorem findPosition_updatePositionRow {db : DB} {uid tk : String} {p : Position}
    (h : findPosition db uid tk = some p) (qty avg : ℚ) :
    findPosition (updatePositionRow db p.position_id qty avg) uid tk =
      some { p with quantity := qty, average_buy_price := avg } := by
  unfold findPosition updatePositionRow at *
  rw [find?_map_pred]
  · rw [h]
    simp
  · intro x
    by_cases hx : x.position_id == p.position_id <;> simp [hx]

theorem findPosition_insertPosition {db : DB} {uid tk : String}
    (h : findPosition db uid tk = none) (qty avg : ℚ) :
    findPosition (insertPosition db uid tk qty avg) uid tk =
      some ⟨db.nextPositionId, uid, tk, qty, avg⟩ := by
  unfold findPosition insertPosition at *
  simp only
  rw [find?_append_none _ h]
  simp

end Helpers
theorem findAccount_deletePositionRow (db : DB) (uid : String) (pid : Nat) :
    findAccount (deletePositionRow db pid) uid = findAccount db uid := rfl

theorem findAccount_updatePositionQty (db : DB) (uid : String) (pid : Nat) (qty : ℚ) :
    findAccount (updatePositionQty db pid qty) uid = findAccount db uid := rfl

/-- Claim C1: a buy filled at price p2 for quantity q2 merges into an existing
open position (q1, p1) for the normalised symbol as quantity q1+q2 with
average_buy_price (p1*q1 + p2*q2)/(q1+q2), and creates a fresh position
with quantity q2 and average_buy_price p2 when none exists. -/
theorem buy_stock_cost_basis (quotes : String → Option TickerInfo) (db db' : DB)
    (uid raw : String) (q : ℚ) (info : TickerInfo)
    (hok : buy_stock quotes db uid raw q = .ok db')
    (hquote : quotes (normalizeSymbol raw) = some info) :
    (∀ p, findPosition db uid (normalizeSymbol raw) = some p →
      findPosition db' uid (normalizeSymbol raw) =
        some { p with
          quantity := p.quantity + q,
          average_buy_price :=
            (p.average_buy_price * p.quantity + info.price * q) / (p.quantity + q) })
    ∧ (findPosition db uid (normalizeSymbol raw) = none →
      findPosition db' uid (normalizeSymbol raw) =
        some ⟨db.nextPositionId, uid, normalizeSymbol raw, q, info.price⟩) := by
  unfold buy_stock at hok
  split at hok
  · cases hok
  · simp only [hquote] at hok
    split at hok
    · cases hok
    · rename_i account hacct
      split at hok
      · cases hok
      · simp only [Except.ok.injEq] at hok
        subst hok
        constructor
        · intro p hp
          have hp1 : findPosition
              (updateCash db uid (account.cash_balance - info.price * q))
              uid (normalizeSymbol raw) = some p := by
            rw [findPosition_updateCash]; exact hp
          rw [hp1]
          simp only
          rw [findPosition_insertTransaction]
          exact findPosition_updatePositionRow hp1 _ _
        · intro hp
          have hp1 : findPosition
              (updateCash db uid (account.cash_balance - info.price * q))
              uid (normalizeSymbol raw) = none := by
            rw [findPosition_updateCash]; exact hp
          rw [hp1]
          simp only
          rw [findPosition_insertTransaction]
          exact findPosition_insertPosition hp1 _ _
/-- Claim C2: with a positive quantity, a resolved quote and an existing
account, a buy fails with InsufficientFunds exactly when
cash_balance < price * quantity (the embedding returns an error and no
successor store, so a rejected order changes nothing); a committed buy
debits cash by exactly price * quantity, a committed sell credits it
by exactly price * quantity, and for a nonnegative quoted price a
nonnegative balance stays nonnegative after any committed order. -/
theorem order_cash_effects (quotes : String → Option TickerInfo) (db : DB)
    (uid raw : String) (q : ℚ) (info : TickerInfo) (acct : Account)
    (hq : 0 < q) (hquote : quotes (normalizeSymbol raw) = some info)
    (hacct : findAccount db uid = some acct) :
    (buy_stock quotes db uid raw q = .error .InsufficientFunds ↔
      acct.cash_balance < info.price * q)
    ∧ (∀ db', buy_stock quotes db uid raw q = .ok db' →
        findAccount db' uid =
          some { acct with cash_balance := acct.cash_balance - info.price * q })
    ∧ (∀ db', sell_stock quotes db uid raw q = .ok db' →
        findAccount db' uid =
          some { acct with cash_balance := acct.cash_balance + info.price * q })
    ∧ (0 ≤ acct.cash_balance → 0 ≤ info.price →
        ∀ db', (buy_stock quotes db uid raw q = .ok db' ∨
                sell_stock quotes db uid raw q = .ok db') →
        ∀ acct', findAccount db' uid = some acct' → 0 ≤ acct'.cash_balance) := by
  have hnle : ¬q ≤ 0 := not_le.mpr hq
  have hbuy : buy_stock quotes db uid raw q =
      (if acct.cash_balance < info.price * q then .error .InsufficientFunds
       else
        let db1 := updateCash db uid (acct.cash_balance - info.price * q)
        let db2 :=
          match findPosition db1 uid (normalizeSymbol raw) with
          | some position =>
            updatePositionRow db1 position.position_id (position.quantity + q)
              ((position.average_buy_price * position.quantity + info.price * q) /
                (position.quantity + q))
          | none => insertPosition db1 uid (normalizeSymbol raw) q info.price
        .ok (insertTransaction db2 uid (normalizeSymbol raw) "BUY" q info.price)) := by
    unfold buy_stock
    rw [if_neg hnle]
    simp only [hquote, hacct]
  have hbuyok : ∀ db', buy_stock quotes db uid raw q = .ok db' →
      findAccount db' uid =
        some { acct with cash_balance := acct.cash_balance - info.price * q } := by
    intro db' hok
    rw [hbuy] at hok
    split at hok
    · cases hok
    · simp only [Except.ok.injEq] at hok
      subst hok
      cases hfp : findPosition (updateCash db uid (acct.cash_balance - info.price * q))
          uid (normalizeSymbol raw) with
      | none =>
        simp only
        rw [findAccount_insertTransaction, findAccount_insertPosition]
        exact findAccount_updateCash hacct _
      | some p =>
        simp only
        rw [findAccount_insertTransaction, findAccount_updatePositionRow]
        exact findAccount_updateCash hacct _
  have hsellok : ∀ db', sell_stock quotes db uid raw q = .ok db' →
      findAccount db' uid =
        some { acct with cash_balance := acct.cash_balance + info.price * q } := by
    intro db' hok
    unfold sell_stock at hok
    rw [if_neg hnle] at hok
    split at hok
    · cases hok
    · rename_i p hfp
      split at hok
      · cases hok
      · simp only [hquote, hacct] at hok
        split at hok
        · simp only [Except.ok.injEq] at hok
          subst hok
          rw [findAccount_insertTransaction, findAccount_deletePositionRow]
          exact findAccount_updateCash hacct _
        · simp only [Except.ok.injEq] at hok
          subst hok
          rw [findAccount_insertTransaction, findAccount_updatePositionQty]
          exact findAccount_updateCash hacct _
  refine ⟨?_, hbuyok, hsellok, ?_⟩
  · constructor
    · intro herr
      by_contra hc
      rw [hbuy, if_neg hc] at herr
      cases herr
    · intro hc
      rw [hbuy, if_pos hc]
  · intro hcash hprice db' hok acct' hacct'
    rcases hok with hok | hok
    · have hnf : ¬acct.cash_balance < info.price * q := by
        intro hc
        rw [hbuy, if_pos hc] at hok
        cases hok
      have := hbuyok db' hok
      rw [this] at hacct'
      cases hacct'
      simp only
      linarith [not_lt.mp hnf]
    · have := hsellok db' hok
      rw [this] at hacct'
      cases hacct'
      simp only
      have : 0 ≤ info.price * q := mul_nonneg hprice (le_of_lt hq)
      linarith
/-- Claim C3: with a positive requested quantity, a sell is rejected with
InsufficientShares exactly when no open position for the normalised
symbol exists or the position covers strictly less than the requested
quantity (equality is allowed); the rejection is decided before the
quote gateway is consulted, so it is identical under every quote
oracle, and a rejected order produces no successor store, leaving
cash, positions and the transaction log unchanged. -/
theorem sell_insufficient_shares (quotes : String → Option TickerInfo)
    (db : DB) (uid raw : String) (q : ℚ) (hq : 0 < q) :
    (sell_stock quotes db uid raw q = .error .InsufficientShares ↔
      (findPosition db uid (normalizeSymbol raw) = none ∨
       ∃ p, findPosition db uid (normalizeSymbol raw) = some p ∧ p.quantity < q))
    ∧ (∀ quotes2 : String → Option TickerInfo,
        (findPosition db uid (normalizeSymbol raw) = none ∨
         ∃ p, findPosition db uid (normalizeSymbol raw) = some p ∧ p.quantity < q) →
        sell_stock quotes db uid raw q = sell_stock quotes2 db uid raw q) := by
  have hnle : ¬q ≤ 0 := not_le.mpr hq
  have hred : ∀ qu : String → Option TickerInfo,
      (findPosition db uid (normalizeSymbol raw) = none ∨
       ∃ p, findPosition db uid (normalizeSymbol raw) = some p ∧ p.quantity < q) →
      sell_stock qu db uid raw q = .error .InsufficientShares := by
    intro qu h
    unfold sell_stock
    rw [if_neg hnle]
    rcases h with h | ⟨p, hp, hlt⟩
    · simp only [h]
    · simp only [hp]
      rw [if_pos hlt]
  constructor
  · constructor
    · intro herr
      by_contra hc
      push_neg at hc
      obtain ⟨hnone, hsome⟩ := hc
      cases hfp : findPosition db uid (normalizeSymbol raw) with
      | none => exact hnone hfp
      | some p =>
        have hge : ¬p.quantity < q := not_lt.mpr (hsome p hfp)
        unfold sell_stock at herr
        rw [if_neg hnle] at herr
        simp only [hfp] at herr
        rw [if_neg hge] at herr
        cases hqu : quotes (normalizeSymbol raw) with
        | none => simp only [hqu] at herr; simp at herr
        | some info =>
          simp only [hqu] at herr
          cases hac : findAccount db uid with
          | none => simp only [hac] at herr; simp at herr
          | some acct =>
            simp only [hac] at herr
            split at herr <;> cases herr
    · exact hred quotes
  · intro quotes2 h
    rw [hred quotes h, hred quotes2 h]

/-- Claim C4: a committed sell of quantity q against the open position p of
the normalised symbol deletes the position row entirely when the
remainder p.quantity - q is at or below the tolerance 1e-7, and
otherwise only rewrites the quantity of that row to p.quantity - q, leaving
average_buy_price and every other field of every position untouched:
no sell ever modifies average_buy_price. -/
theorem sell_position_update (quotes : String → Option TickerInfo)
    (db db' : DB) (uid raw : String) (q : ℚ) (p : Position)
    (hfp : findPosition db uid (normalizeSymbol raw) = some p)
    (hok : sell_stock quotes db uid raw q = .ok db') :
    (p.quantity - q ≤ sellEpsilon ∧
      db'.positions = db.positions.filter (fun r => !(r.position_id == p.position_id)))
    ∨ (sellEpsilon < p.quantity - q ∧
      db'.positions = db.positions.map (fun r =>
        if r.position_id == p.position_id then { r with quantity := p.quantity - q }
        else r)) := by
  unfold sell_stock at hok
  split at hok
  · cases hok
  · simp only [hfp] at hok
    split at hok
    · cases hok
    · cases hqu : quotes (normalizeSymbol raw) with
      | none => simp only [hqu] at hok; cases hok
      | some info =>
        simp only [hqu] at hok
        cases hac : findAccount db uid with
        | none => simp only [hac] at hok; cases hok
        | some acct =>
          simp only [hac] at hok
          split at hok
          · rename_i hle
            simp only [Except.ok.injEq] at hok
            subst hok
            exact Or.inl ⟨hle, rfl⟩
          · rename_i hgt
            simp only [Except.ok.injEq] at hok
            subst hok
            exact Or.inr ⟨lt_of_not_le hgt, rfl⟩

/-- Claim C9: both order handlers normalise the ticker by stripping
surrounding whitespace and uppercasing before any lookup or write, so
orders are case- and whitespace-insensitive in the symbol: two raw
tickers with the same normalisation produce identical buy and sell
outcomes, "aapl" and "AAPL " both normalise to "AAPL", and concretely
buying "aapl" and then selling "AAPL " operate on the same position
row and record both transactions under "AAPL". -/
theorem ticker_normalization :
    (∀ (quotes : String → Option TickerInfo) (db : DB) (uid t1 t2 : String) (q : ℚ),
      normalizeSymbol t1 = normalizeSymbol t2 →
      buy_stock quotes db uid t1 q = buy_stock quotes db uid t2 q ∧
      sell_stock quotes db uid t1 q = sell_stock quotes db uid t2 q)
    ∧ normalizeSymbol "aapl" = "AAPL"
    ∧ normalizeSymbol "AAPL " = "AAPL"
    ∧ buy_stock quotesW dbW "u1" "aapl" 2 = Except.ok dbW9
    ∧ sell_stock quotesW dbW9 "u1" "AAPL " 2 = Except.ok dbW9b
    ∧ findPosition dbW9 "u1" "AAPL" = some ⟨1, "u1", "AAPL", 4, 15⟩
    ∧ findPosition dbW9b "u1" "AAPL" = some ⟨1, "u1", "AAPL", 2, 15⟩
    ∧ dbW9b.transactions.map (fun t => t.ticker_symbol) = ["AAPL", "AAPL"] := by
  refine ⟨?_, by decide, by decide, ?_, ?_, by decide, by decide, by decide⟩
  · intro quotes db uid t1 t2 q h
    constructor
    · unfold buy_stock
      rw [h]
    · unfold sell_stock
      rw [h]
  · have hn : normalizeSymbol "aapl" = "AAPL" := by decide
    simp only [buy_stock, hn, quotesW, dbW, dbW9, findAccount, findPosition,
      updateCash, updatePositionRow, insertTransaction]
    norm_num
  · have hn : normalizeSymbol "AAPL " = "AAPL" := by decide
    simp only [sell_stock, hn, quotesW, dbW9, dbW9b, findAccount, findPosition,
      updateCash, updatePositionQty, deletePositionRow, insertTransaction,
      sellEpsilon]
    norm_num
/-- The valuation loop computes, in order: the equity bucket as the sum
of current values over non-crypto symbols, the crypto bucket as the sum
over symbols ending in "-USD", the total investment cost, and the
per-position detail list in iteration order. -/
theorem portfolioLoop_spec (quotes : String → Option TickerInfo)
    (l : List Position) :
    portfolioLoop quotes l =
      (((l.filter (fun p => !(pyEndsWith p.ticker_symbol "-USD"))).map
          (fun p => (value_position quotes p).current_value)).sum,
       ((l.filter (fun p => pyEndsWith p.ticker_symbol "-USD")).map
          (fun p => (value_position quotes p).current_value)).sum,
       (l.map (fun p => p.average_buy_price * p.quantity)).sum,
       l.map (value_position quotes)) := by
  induction l with
  | nil => rfl
  | cons pos rest ih =>
    simp only [portfolioLoop, ih, List.filter_cons, List.map_cons, List.sum_cons]
    by_cases hc : pyEndsWith pos.ticker_symbol "-USD" <;> simp [hc]

/-- Claim C5: in every successful portfolio valuation the detail list is the
per-position valuation of the held positions in order; each position
lands in exactly one bucket chosen only by whether its symbol ends in
"-USD"; the response aggregates satisfy
total_asset_value = stocks + crypto,
total_portfolio_value = total_asset_value + cash_balance, and
overall_pnl_pct is (total_asset_value - cost)/cost for positive total
cost and 0 otherwise; and per position
current_value = current_price * quantity,
unrealized_pnl = (current_price - average_buy_price) * quantity and
unrealized_pnl_pct is unrealized_pnl over the positive cost basis, else
0 with no division error. -/
theorem portfolio_valuation_formulas (quotes : String → Option TickerInfo)
    (db : DB) (uid : String) (pf : PortfolioView)
    (h : get_portfolio_view quotes db uid = .ok pf) :
    pf.positions = (listPositions db uid).map (value_position quotes)
    ∧ pf.total_value_stocks =
        (((listPositions db uid).filter
            (fun p => !(pyEndsWith p.ticker_symbol "-USD"))).map
          (fun p => (value_position quotes p).current_value)).sum
    ∧ pf.total_value_crypto =
        (((listPositions db uid).filter
            (fun p => pyEndsWith p.ticker_symbol "-USD")).map
          (fun p => (value_position quotes p).current_value)).sum
    ∧ pf.total_asset_value = pf.total_value_stocks + pf.total_value_crypto
    ∧ pf.total_portfolio_value = pf.total_asset_value + pf.cash_balance
    ∧ pf.overall_pnl_pct =
        (if ((listPositions db uid).map
              (fun p => p.average_buy_price * p.quantity)).sum > 0 then
          (pf.total_asset_value -
            ((listPositions db uid).map
              (fun p => p.average_buy_price * p.quantity)).sum) /
            ((listPositions db uid).map
              (fun p => p.average_buy_price * p.quantity)).sum
        else 0)
    ∧ (∀ pos : Position,
        (value_position quotes pos).current_value =
          (value_position quotes pos).current_price * pos.quantity
        ∧ (value_position quotes pos).unrealized_pnl =
            ((value_position quotes pos).current_price - pos.average_buy_price) *
              pos.quantity
        ∧ (value_position quotes pos).unrealized_pnl_pct =
            (if pos.average_buy_price * pos.quantity > 0 then
              (value_position quotes pos).unrealized_pnl /
                (pos.average_buy_price * pos.quantity)
            else 0)) := by
  unfold get_portfolio_view at h
  cases hacct : findAccount db uid with
  | none => rw [hacct] at h; cases h
  | some account =>
    rw [hacct] at h
    rw [portfolioLoop_spec] at h
    simp only [Except.ok.injEq] at h
    subst h
    refine ⟨rfl, rfl, rfl, rfl, rfl, rfl, ?_⟩
    intro pos
    unfold value_position
    cases hq : quotes pos.ticker_symbol <;> simp [hq]

/-- Claim C6: portfolio valuation fails exactly when the account row does not
exist, and then only with UserNotFound; when it succeeds, every held
position whose quote lookup failed still appears in the response with
current_price 0, day_change_pct 0 and the ticker symbol as display
name, so one failed quote never fails the whole request. -/
theorem portfolio_quote_degradation (quotes : String → Option TickerInfo)
    (db : DB) (uid : String) :
    (get_portfolio_view quotes db uid = .error .UserNotFound ↔
      findAccount db uid = none)
    ∧ (∀ e, get_portfolio_view quotes db uid = .error e → e = .UserNotFound)
    ∧ (∀ pf, get_portfolio_view quotes db uid = .ok pf →
        ∀ pos ∈ listPositions db uid, quotes pos.ticker_symbol = none →
          value_position quotes pos ∈ pf.positions
          ∧ (value_position quotes pos).current_price = 0
          ∧ (value_position quotes pos).day_change_pct = 0
          ∧ (value_position quotes pos).name = pos.ticker_symbol
          ∧ (value_position quotes pos).ticker = pos.ticker_symbol) := by
  have hpos : ∀ pf, get_portfolio_view quotes db uid = .ok pf →
      pf.positions = (listPositions db uid).map (value_position quotes) := by
    intro pf h
    unfold get_portfolio_view at h
    cases hacct : findAccount db uid with
    | none => rw [hacct] at h; cases h
    | some account =>
      rw [hacct, portfolioLoop_spec] at h
      simp only [Except.ok.injEq] at h
      subst h
      rfl
  refine ⟨?_, ?_, ?_⟩
  · constructor
    · intro h
      cases hacct : findAccount db uid with
      | none => rfl
      | some account =>
        unfold get_portfolio_view at h
        rw [hacct] at h
        cases h
    · intro h
      unfold get_portfolio_view
      rw [h]
  · intro e h
    cases hacct : findAccount db uid with
    | none =>
      unfold get_portfolio_view at h
      rw [hacct] at h
      cases h
      rfl
    | some account =>
      unfold get_portfolio_view at h
      rw [hacct] at h
      cases h
  · intro pf h pos hmem hq
    refine ⟨?_, ?_, ?_, ?_, ?_⟩
    · rw [hpos pf h]
      exact List.mem_map_of_mem _ hmem
    · unfold value_position; simp [hq]
    · unfold value_position; simp [hq]
    · unfold value_position; simp [hq]
    · unfold value_position; simp [hq]

/-- The snapshot asset loop is the sum of the per-position
contributions. -/
theorem snapshotAssetValue_eq_sum (quotes : String → Option TickerInfo)
    (l : List Position) :
    snapshotAssetValue quotes l = (l.map (snapshotContribution quotes)).sum := by
  induction l with
  | nil => rfl
  | cons pos rest ih => simp [snapshotAssetValue, ih]

/-- Claim C8: one invocation of the snapshot recorder appends to the history,
in iteration order, exactly one row per non-failing user of the
deduplicated account list, stamped with the invocation time and the
snapshot value of the user (cash plus the sum over positions of
price*quantity for resolved numeric quotes, zero contribution
otherwise); it touches no other table, the count it reports is the
number of rows appended, the user list has no duplicates, and a user
whose valuation raised is skipped without aborting the remaining
users, each of whom still gets their row. -/
theorem record_history_spec (quotes : String → Option TickerInfo)
    (fails : String → Bool) (now : Nat) (db : DB) :
    ((record_portfolio_history quotes fails now db).1.history =
      db.history ++
        (((db.accounts.map (fun a => a.user_id)).dedup).filter
            (fun u => !(fails u))).map
          (fun u => (⟨u, now, snapshot_value quotes db u⟩ : HistoryRow)))
    ∧ (record_portfolio_history quotes fails now db).1.accounts = db.accounts
    ∧ (record_portfolio_history quotes fails now db).1.positions = db.positions
    ∧ (record_portfolio_history quotes fails now db).1.transactions = db.transactions
    ∧ (record_portfolio_history quotes fails now db).2 =
        (((db.accounts.map (fun a => a.user_id)).dedup).filter
          (fun u => !(fails u))).length
    ∧ ((db.accounts.map (fun a => a.user_id)).dedup).Nodup
    ∧ (∀ uid, snapshot_value quotes db uid =
        (match findAccount db uid with
         | some a => a.cash_balance
         | none => 0) +
        ((listPositions db uid).map (fun p =>
          match quotes p.ticker_symbol with
          | some ticker_data =>
            if ticker_data.price_is_numeric then ticker_data.price * p.quantity
            else 0
          | none => 0)).sum)
    ∧ (∀ uid, uid ∈ (db.accounts.map (fun a => a.user_id)).dedup →
        fails uid = false →
        (⟨uid, now, snapshot_value quotes db uid⟩ : HistoryRow) ∈
          (record_portfolio_history quotes fails now db).1.history) := by
  have hloop : ∀ users : List String,
      recordLoop quotes fails now db users =
        ((users.filter (fun u => !(fails u))).map
          (fun u => (⟨u, now, snapshot_value quotes db u⟩ : HistoryRow)),
         (users.filter (fun u => !(fails u))).length) := by
    intro users
    induction users with
    | nil => rfl
    | cons u rest ih =>
      simp only [recordLoop, ih, List.filter_cons]
      cases hf : fails u <;> simp [hf]
  have hmain : record_portfolio_history quotes fails now db =
      ({ db with
          history := db.history ++
              (((db.accounts.map (fun a => a.user_id)).dedup).filter
                  (fun u => !(fails u))).map
                (fun u => (⟨u, now, snapshot_value quotes db u⟩ : HistoryRow)) },
       (((db.accounts.map (fun a => a.user_id)).dedup).filter
          (fun u => !(fails u))).length) := by
    simp only [record_portfolio_history]
    rw [hloop]
  rw [hmain]
  refine ⟨rfl, rfl, rfl, rfl, rfl, List.nodup_dedup _, ?_, ?_⟩
  · intro uid
    unfold snapshot_value
    rw [snapshotAssetValue_eq_sum]
    rfl
  · intro uid hmem hf
    simp only
    refine List.mem_append_right _ ?_
    refine List.mem_map_of_mem _ ?_
    rw [List.mem_filter]
    exact ⟨hmem, by simp [hf]⟩
instance : IsTotal HistoryRow (fun a b => a.created_at ≤ b.created_at) :=
  ⟨fun a b => Nat.le_total a.created_at b.created_at⟩

instance : IsTrans HistoryRow (fun a b => a.created_at ≤ b.created_at) :=
  ⟨fun _ _ _ hab hbc => Nat.le_trans hab hbc⟩

/-- The time sort of the history query is sorted by created_at. -/
theorem sortRowsByTime_sorted (l : List HistoryRow) :
    List.Sorted (fun a b : HistoryRow => a.created_at ≤ b.created_at)
      (sortRowsByTime l) :=
  List.sorted_insertionSort _ l

/-- The time sort of the history query is a permutation of its input. -/
theorem sortRowsByTime_perm (l : List HistoryRow) :
    (sortRowsByTime l).Perm l :=
  List.perm_insertionSort _ l

/-- The window filter factors through the per-user filter. -/
theorem userHistoryRows_factor (db : DB) (uid : String) (cutoff : Nat) :
    userHistoryRows db uid cutoff =
      (db.history.filter (fun r => r.user_id == uid)).filter
        (fun r => decide (cutoff ≤ r.created_at)) := by
  unfold userHistoryRows
  rw [List.filter_filter]
  apply List.filter_congr
  intro r _
  exact Bool.and_comm _ _

/-- Claim C7: the history endpoint with range 1y returns points with strictly
increasing timestamps, hence at most one point per distinct UTC
calendar day, each point keyed at the start of its day and carrying the
arithmetic mean of the snapshot values of that day inside the one-year
window; ranges 1d, 1w and 1m return the raw window rows unaggregated
(a permutation of the window, values and timestamps untouched) in
ascending time order; any unrecognised range behaves exactly as 1d;
and a user with no snapshot rows gets an empty sequence for every
range, never an error. -/
theorem history_range_semantics (db : DB) (now : Nat) (uid : String) :
    (List.Pairwise (fun a b : HistoryPoint => a.timestamp < b.timestamp)
      (get_portfolio_history db now uid "1y"))
    ∧ (∀ pt ∈ get_portfolio_history db now uid "1y",
        pt.timestamp = dayOf pt.timestamp * secondsPerDay
        ∧ (userHistoryRows db uid (now - 365 * secondsPerDay)).filter
            (fun r => dayOf r.created_at == dayOf pt.timestamp) ≠ []
        ∧ pt.value =
            (((userHistoryRows db uid (now - 365 * secondsPerDay)).filter
                (fun r => dayOf r.created_at == dayOf pt.timestamp)).map
              (fun r => r.value)).sum /
            ((((userHistoryRows db uid (now - 365 * secondsPerDay)).filter
                (fun r => dayOf r.created_at == dayOf pt.timestamp)).length : ℚ)))
    ∧ (List.Pairwise (fun a b : HistoryPoint => a.timestamp ≤ b.timestamp)
        (get_portfolio_history db now uid "1d")
      ∧ (get_portfolio_history db now uid "1d").Perm
          (rawPoints (userHistoryRows db uid (startOfDay now))))
    ∧ (List.Pairwise (fun a b : HistoryPoint => a.timestamp ≤ b.timestamp)
        (get_portfolio_history db now uid "1w")
      ∧ (get_portfolio_history db now uid "1w").Perm
          (rawPoints (userHistoryRows db uid (now - 7 * secondsPerDay))))
    ∧ (List.Pairwise (fun a b : HistoryPoint => a.timestamp ≤ b.timestamp)
        (get_portfolio_history db now uid "1m")
      ∧ (get_portfolio_history db now uid "1m").Perm
          (rawPoints (userHistoryRows db uid (now - 30 * secondsPerDay))))
    ∧ (∀ r : String, pyLower r ≠ "1d" → pyLower r ≠ "1w" → pyLower r ≠ "1m" →
        pyLower r ≠ "1y" →
        get_portfolio_history db now uid r = get_portfolio_history db now uid "1d")
    ∧ (∀ r : String, db.history.filter (fun row => row.user_id == uid) = [] →
        get_portfolio_history db now uid r = [])
    ∧ (userHistoryRows db uid (startOfDay now) = [] →
        get_portfolio_history db now uid "1d" = [])
    ∧ (userHistoryRows db uid (now - 7 * secondsPerDay) = [] →
        get_portfolio_history db now uid "1w" = [])
    ∧ (userHistoryRows db uid (now - 30 * secondsPerDay) = [] →
        get_portfolio_history db now uid "1m" = [])
    ∧ (userHistoryRows db uid (now - 365 * secondsPerDay) = [] →
        get_portfolio_history db now uid "1y" = []) := by
  have hraw : ∀ w : List HistoryRow,
      List.Pairwise (fun a b : HistoryPoint => a.timestamp ≤ b.timestamp)
        (rawPoints (sortRowsByTime w))
      ∧ (rawPoints (sortRowsByTime w)).Perm (rawPoints w) := by
    intro w
    constructor
    · unfold rawPoints
      rw [List.pairwise_map]
      exact sortRowsByTime_sorted w
    · exact (sortRowsByTime_perm w).map _
  have h1y : get_portfolio_history db now uid "1y" =
      dailyAverages (userHistoryRows db uid (now - 365 * secondsPerDay)) := rfl
  refine ⟨?_, ?_, hraw _, hraw _, hraw _, ?_, ?_, ?_, ?_, ?_, ?_⟩
  · rw [h1y]
    unfold dailyAverages
    rw [List.pairwise_map]
    have hsorted : List.Sorted (fun a b : Nat => a ≤ b)
        (List.insertionSort (fun a b => a ≤ b)
          (daysOf (userHistoryRows db uid (now - 365 * secondsPerDay)))) :=
      List.sorted_insertionSort _ _
    have hnodup : (List.insertionSort (fun a b : Nat => a ≤ b)
        (daysOf (userHistoryRows db uid (now - 365 * secondsPerDay)))).Nodup :=
      (List.perm_insertionSort _ _).nodup_iff.mpr (List.nodup_dedup _)
    have hlt := List.Sorted.lt_of_le hsorted hnodup
    refine hlt.imp ?_
    intro a b hab
    show a * secondsPerDay < b * secondsPerDay
    simp only [secondsPerDay]
    omega
  · intro pt hpt
    rw [h1y] at hpt
    unfold dailyAverages at hpt
    obtain ⟨d, hd, hptd⟩ := List.mem_map.mp hpt
    subst hptd
    have hday : dayOf (d * secondsPerDay) = d := by
      unfold dayOf secondsPerDay
      exact Nat.mul_div_cancel d (by norm_num)
    have hdmem : d ∈ daysOf (userHistoryRows db uid (now - 365 * secondsPerDay)) := by
      rw [← List.mem_insertionSort (fun a b : Nat => a ≤ b)]
      exact hd
    obtain ⟨r, hr, hrd⟩ := List.mem_map.mp (List.mem_dedup.mp hdmem)
    refine ⟨by simp [hday], ?_, ?_⟩
    · simp only [hday]
      apply List.ne_nil_of_mem (a := r)
      rw [List.mem_filter]
      exact ⟨hr, by simp [hrd]⟩
    · simp only [hday]
  · intro r h1 h2 h3 h4
    have hrd : get_portfolio_history db now uid "1d" =
        rawPoints (sortRowsByTime (userHistoryRows db uid (startOfDay now))) := rfl
    rw [hrd]
    simp only [get_portfolio_history, beq_iff_eq, h1, h2, h3, h4, if_false]
  · intro r hu
    have hw : ∀ c, userHistoryRows db uid c = [] := by
      intro c
      rw [userHistoryRows_factor, hu]
      rfl
    simp only [get_portfolio_history]
    split_ifs <;> simp [hw, dailyAverages, daysOf, sortRowsByTime, rawPoints]
  · intro hw
    show rawPoints (sortRowsByTime (userHistoryRows db uid (startOfDay now))) = []
    rw [hw]
    rfl
  · intro hw
    show rawPoints (sortRowsByTime (userHistoryRows db uid (now - 7 * secondsPerDay))) = []
    rw [hw]
    rfl
  · intro hw
    show rawPoints (sortRowsByTime (userHistoryRows db uid (now - 30 * secondsPerDay))) = []
    rw [hw]
    rfl
  · intro hw
    show dailyAverages (userHistoryRows db uid (now - 365 * secondsPerDay)) = []
    rw [hw]
    rfl
/-- Claim C10: the history endpoint never fails: every request returns
success with the query result, the result never reads the accounts
table at all (so a user with no account row gets their, possibly
empty, snapshot list), in contrast to portfolio valuation, which
rejects a missing account with UserNotFound. -/
theorem history_no_user_check (quotes : String → Option TickerInfo)
    (db : DB) (now : Nat) (uid range : String) :
    (∀ e : ApiError, get_portfolio_history_endpoint db now uid range ≠ Except.error e)
    ∧ get_portfolio_history_endpoint db now uid range =
        Except.ok (get_portfolio_history db now uid range)
    ∧ (∀ accts : List Account,
        get_portfolio_history { db with accounts := accts } now uid range =
          get_portfolio_history db now uid range)
    ∧ (findAccount db uid = none →
        get_portfolio_view quotes db uid = Except.error .UserNotFound) := by
  refine ⟨?_, rfl, ?_, ?_⟩
  · intro e h
    exact Except.noConfusion h
  · intro accts
    rfl
  · intro h
    unfold get_portfolio_view
    rw [h]
theorem buy_stock_cost_basis_witness :
    buy_stock quotesW dbW "u1" "aapl" 3 = Except.ok dbW1
    ∧ findPosition dbW1 "u1" (normalizeSymbol "aapl") =
        some ⟨1, "u1", "AAPL", 2 + 3, (10 * 2 + 20 * 3) / (2 + 3)⟩ := by
  have hn : normalizeSymbol "aapl" = "AAPL" := by decide
  have hok : buy_stock quotesW dbW "u1" "aapl" 3 = Except.ok dbW1 := by
    simp only [buy_stock, hn, quotesW, dbW, dbW1, findAccount, findPosition,
      updateCash, updatePositionRow, insertTransaction]
    norm_num
  refine ⟨hok, ?_⟩
  exact (buy_stock_cost_basis quotesW dbW dbW1 "u1" "aapl" 3 ⟨20, 1, "Apple", true⟩
    hok (by decide)).1 ⟨1, "u1", "AAPL", 2, 10⟩ (by decide)

theorem order_cash_effects_witness :
    buy_stock quotesW dbW "u1" "AAPL" 1 = Except.ok dbW2
    ∧ findAccount dbW2 "u1" = some ⟨"u1", 1000 - 20 * 1⟩ := by
  have hn : normalizeSymbol "AAPL" = "AAPL" := by decide
  have hok : buy_stock quotesW dbW "u1" "AAPL" 1 = Except.ok dbW2 := by
    simp only [buy_stock, hn, quotesW, dbW, dbW2, findAccount, findPosition,
      updateCash, updatePositionRow, insertTransaction]
    norm_num
  refine ⟨hok, ?_⟩
  exact (order_cash_effects quotesW dbW "u1" "AAPL" 1 ⟨20, 1, "Apple", true⟩
    ⟨"u1", 1000⟩ (by norm_num) (by decide) (by decide)).2.1 dbW2 hok

theorem sell_insufficient_shares_witness :
    sell_stock quotesW dbW "u1" "AAPL" 5 = Except.error ApiError.InsufficientShares := by
  exact (sell_insufficient_shares quotesW dbW "u1" "AAPL" 5 (by norm_num)).1.mpr
    (Or.inr ⟨⟨1, "u1", "AAPL", 2, 10⟩, by decide, by decide⟩)

theorem sell_position_update_witness :
    sell_stock quotesW dbW "u1" "AAPL" 2 = Except.ok dbW3
    ∧ (((2 : ℚ) - 2 ≤ sellEpsilon ∧
        dbW3.positions = dbW.positions.filter (fun r => !(r.position_id == 1)))
      ∨ (sellEpsilon < (2 : ℚ) - 2 ∧
        dbW3.positions = dbW.positions.map (fun r =>
          if r.position_id == 1 then { r with quantity := (2 : ℚ) - 2 } else r))) := by
  have hn : normalizeSymbol "AAPL" = "AAPL" := by decide
  have hok : sell_stock quotesW dbW "u1" "AAPL" 2 = Except.ok dbW3 := by
    simp only [sell_stock, hn, quotesW, dbW, dbW3, findAccount, findPosition,
      updateCash, updatePositionQty, deletePositionRow, insertTransaction, sellEpsilon]
    norm_num
  refine ⟨hok, ?_⟩
  exact sell_position_update quotesW dbW dbW3 "u1" "AAPL" 2 ⟨1, "u1", "AAPL", 2, 10⟩
    (by decide) hok

theorem portfolio_valuation_formulas_witness :
    get_portfolio_view quotesW dbW "u1" = Except.ok pfW
    ∧ pfW.total_asset_value = pfW.total_value_stocks + pfW.total_value_crypto := by
  have he : pyEndsWith "AAPL" "-USD" = false := by decide
  have hok : get_portfolio_view quotesW dbW "u1" = Except.ok pfW := by
    simp only [get_portfolio_view, findAccount, dbW, listPositions, portfolioLoop,
      value_position, quotesW, pfW, he]
    norm_num
  exact ⟨hok, (portfolio_valuation_formulas quotesW dbW "u1" pfW hok).2.2.2.1⟩

theorem portfolio_quote_degradation_witness :
    get_portfolio_view quotesNone dbW "u1" = Except.ok pfW6
    ∧ (value_position quotesNone ⟨1, "u1", "AAPL", 2, 10⟩ ∈ pfW6.positions
      ∧ (value_position quotesNone ⟨1, "u1", "AAPL", 2, 10⟩).current_price = 0
      ∧ (value_position quotesNone ⟨1, "u1", "AAPL", 2, 10⟩).day_change_pct = 0
      ∧ (value_position quotesNone ⟨1, "u1", "AAPL", 2, 10⟩).name = "AAPL"
      ∧ (value_position quotesNone ⟨1, "u1", "AAPL", 2, 10⟩).ticker = "AAPL") := by
  have hok : get_portfolio_view quotesNone dbW "u1" = Except.ok pfW6 := by
    simp only [get_portfolio_view, findAccount, dbW, listPositions, portfolioLoop,
      value_position, quotesNone, pfW6]
    norm_num
  refine ⟨hok, ?_⟩
  exact (portfolio_quote_degradation quotesNone dbW "u1").2.2 pfW6 hok
    ⟨1, "u1", "AAPL", 2, 10⟩ (by decide) rfl

theorem history_range_semantics_witness :
    get_portfolio_history dbH 400000 "u" "xx" = get_portfolio_history dbH 400000 "u" "1d"
    ∧ get_portfolio_history dbH 400000 "ghost" "1y" = [] := by
  refine ⟨?_, ?_⟩
  · exact (history_range_semantics dbH 400000 "u").2.2.2.2.2.1 "xx"
      (by decide) (by decide) (by decide) (by decide)
  · exact (history_range_semantics dbH 400000 "ghost").2.2.2.2.2.2.2.2.2.2 (by decide)

theorem record_history_spec_witness :
    (⟨"u1", 50, snapshot_value quotesW dbR "u1"⟩ : HistoryRow) ∈
      (record_portfolio_history quotesW failsR 50 dbR).1.history := by
  exact (record_history_spec quotesW failsR 50 dbR).2.2.2.2.2.2.2 "u1"
    (by decide) (by decide)

theorem ticker_normalization_witness :
    buy_stock quotesW dbW "u1" "aapl" 2 = buy_stock quotesW dbW "u1" " AAPL " 2 := by
  exact ((ticker_normalization).1 quotesW dbW "u1" "aapl" " AAPL " 2 (by decide)).1

theorem history_no_user_check_witness :
    get_portfolio_view quotesW dbW "ghost" = Except.error ApiError.UserNotFound := by
  exact (history_no_user_check quotesW dbW 0 "ghost" "1d").2.2.2 (by decide)
